import Mathlib

/-!
Verification development for the mongos per-connection session tracker
(`src/mongo/s/client_info.h`, `src/mongo/s/client_info.cpp`).

The embedding models:
- `RequestInfo` (the per-request buffer of shard hosts written and host op
  times), with `set<string>` as a sorted duplicate-free list and
  `map<string, OpTime>` as a sorted association list (preserving the sorted
  iteration order of `std::map`);
- `ClientInfo` (the session): two physical buffers `a` and `b` together with
  two role pointers `cur` and `prev` (each naming one of the two physical
  buffers, exactly as the C++ `_cur` and `_prev` pointers name `_a` or `_b`);
- the transitions `newRequest`, `newPeerRequest`, `disableForCommand`,
  `addShardHost`, `addHostOpTimes`, `clearRequestInfo`,
  `clearSinceLastGetError`, `noAutoSplit`, `disconnect`;
- the thread-local registry slot `_tlInfo` as an `Option ClientInfo` threaded
  through `ClientInfo.create`;
- `enforceWriteConcern`, with the shard network abstracted as a function from
  (shard host, db name, command object) to either a thrown `DBException`
  (`Except.error`) or a command response; the list of shard hosts attempted is
  returned as ghost instrumentation so that theorems can speak about which
  shards were contacted.
-/

/-- OpTime: the logical replication timestamp attached to a host, modelled as
a natural number (the code only stores and forwards it, never compares). -/
abbrev OpTime := Nat

/-- BSONObj: modelled as a list of (field name, timestamp value) pairs; only
the `wOpTime` field is ever inspected by this core, so field values are kept
at the type needed for `appendTimestamp`. -/
abbrev BSONObj := List (String × Nat)

/-- HostAndPort: the remote endpoint identity, host name plus port. In the
source this is `mongo::HostAndPort` (outside this repository slice); it is
modelled as the pair the spec describes: address and port of the remote peer.
A `ClientInfo` whose remote is not yet established (no port, as after the
default constructor) is modelled as `Option.none` at the field that holds it. -/
structure HostAndPort where
  host : String
  port : Nat
deriving DecidableEq, Repr

/-- hpToString: renders a HostAndPort as `host:port`, as the source message
formatting does. -/
def hpToString (hp : HostAndPort) : String :=
  hp.host ++ ":" ++ toString hp.port

/-- setInsert: insertion into a sorted duplicate-free list of strings,
modelling `std::set<std::string>::insert`. -/
def setInsert (x : String) : List String → List String
  | [] => [x]
  | y :: ys =>
    if x < y then x :: y :: ys
    else if x = y then y :: ys
    else y :: setInsert x ys

/-- mapInsert: insertion (with overwrite on an equal key) into a sorted
association list, modelling assignment through `std::map::operator[]`. -/
def mapInsert (k : String) (v : OpTime) : List (String × OpTime) → List (String × OpTime)
  | [] => [(k, v)]
  | (k2, v2) :: rest =>
    if k < k2 then (k, v) :: (k2, v2) :: rest
    else if k = k2 then (k, v) :: rest
    else (k2, v2) :: mapInsert k v rest

/-- mapLookup: first-match lookup in an association list, modelling
`std::map::find`. -/
def mapLookup (k : String) : List (String × OpTime) → Option OpTime
  | [] => none
  | (k2, v2) :: rest => if k = k2 then some v2 else mapLookup k rest

/-- RequestInfo: the per-request buffer, from the nested
`ClientInfo::RequestInfo` struct: the shard hosts written this request and the
map from host to the op time last written there. -/
structure RequestInfo where
  shardHostsWritten : List String
  hostOpTimes : List (String × OpTime)
deriving DecidableEq, Repr

/-- RequestInfo.empty: the default-constructed buffer, and also the result of
`RequestInfo::clear()` (both members emptied in place). -/
def RequestInfo.empty : RequestInfo := ⟨[], []⟩

/-- Buf: which of the two physical buffers (`_a` or `_b`) a role pointer
names. -/
inductive Buf
  | A
  | B
deriving DecidableEq, Repr

/-- ClientInfo: the session state, from the `ClientInfo` class members: the
remote peer (none when no port established yet), the two physical request
buffers `_a` and `_b`, the role pointers `_cur` and `_prev`, the
`_sinceLastGetError` set, `_lastAccess` and `_autoSplitOk`. -/
structure ClientInfo where
  remote : Option HostAndPort
  a : RequestInfo
  b : RequestInfo
  cur : Buf
  prev : Buf
  sinceLastGetError : List String
  lastAccess : Int
  autoSplitOk : Bool
deriving DecidableEq, Repr

/-- mkClientInfo: the constructor `ClientInfo::ClientInfo(messagingPort)`:
`_cur` points at `_a`, `_prev` at `_b`, `_autoSplitOk` is true, and `_remote`
is taken from the messaging port when one is supplied. `_lastAccess` is left
uninitialized by the constructor; the model fixes it at 0, which no claim
depends on. -/
def mkClientInfo (messagingPort : Option HostAndPort) : ClientInfo :=
  { remote := messagingPort
    a := RequestInfo.empty
    b := RequestInfo.empty
    cur := Buf.A
    prev := Buf.B
    sinceLastGetError := []
    lastAccess := 0
    autoSplitOk := true }

/-- getBuf: dereference a role pointer: read the physical buffer it names. -/
def ClientInfo.getBuf (s : ClientInfo) : Buf → RequestInfo
  | Buf.A => s.a
  | Buf.B => s.b

/-- setBuf: write through a role pointer: replace the physical buffer it
names. -/
def ClientInfo.setBuf (s : ClientInfo) (which : Buf) (r : RequestInfo) : ClientInfo :=
  match which with
  | Buf.A => { s with a := r }
  | Buf.B => { s with b := r }

/-- curInfo: the buffer currently in the current role, `*_cur`. -/
def ClientInfo.curInfo (s : ClientInfo) : RequestInfo := s.getBuf s.cur

/-- prevInfo: the buffer currently in the previous role, `*_prev`. -/
def ClientInfo.prevInfo (s : ClientInfo) : RequestInfo := s.getBuf s.prev

/-- getPrevShardHosts: accessor `ClientInfo::getPrevShardHosts`, the shard
hosts of the previous request. -/
def ClientInfo.getPrevShardHosts (s : ClientInfo) : List String :=
  s.prevInfo.shardHostsWritten

/-- getPrevHostOpTimes: accessor `ClientInfo::getPrevHostOpTimes`, the host
op times of the previous request. -/
def ClientInfo.getPrevHostOpTimes (s : ClientInfo) : List (String × OpTime) :=
  s.prevInfo.hostOpTimes

/-- addShardHost: `ClientInfo::addShardHost`: inserts the shard host into the
current buffer and into `_sinceLastGetError`. -/
def ClientInfo.addShardHost (s : ClientInfo) (shardHost : String) : ClientInfo :=
  let s1 := s.setBuf s.cur
    { s.curInfo with shardHostsWritten := setInsert shardHost s.curInfo.shardHostsWritten }
  { s1 with sinceLastGetError := setInsert shardHost s1.sinceLastGetError }

/-- addHostOpTimes: `ClientInfo::addHostOpTimes`: iterates the given map in
its order and assigns each entry into the current buffer through
`operator[]` (overwriting an existing entry for the same host). -/
def ClientInfo.addHostOpTimes (s : ClientInfo) (hostOpTimes : List (String × OpTime)) : ClientInfo :=
  s.setBuf s.cur
    { s.curInfo with
      hostOpTimes :=
        hostOpTimes.foldl (fun acc kv => mapInsert kv.1 kv.2 acc) s.curInfo.hostOpTimes }

/-- newRequest: `ClientInfo::newRequest`: records the access time, swaps the
two role pointers, and clears the buffer now in the current role. The wall
clock read `time(0)` is an external input, passed as `t`. -/
def ClientInfo.newRequest (s : ClientInfo) (t : Int) : ClientInfo :=
  let s1 := { s with lastAccess := t, cur := s.prev, prev := s.cur }
  s1.setBuf s1.cur RequestInfo.empty

/-- UserException: a recoverable thrown error carrying a numeric code and a
message, modelling `mongo::UserException` as thrown by `uassert`/`throw`. -/
structure UserException where
  code : Nat
  msg : String
deriving DecidableEq, Repr

/-- peerMismatchMsg: the message formatted by `ClientInfo::newPeerRequest`
when the stored remote and the reported peer disagree. -/
def peerMismatchMsg (old peer : HostAndPort) : String :=
  "remotes don\x27t match old [" ++ hpToString old ++ "] new [" ++ hpToString peer ++ "]"

/-- newPeerRequest: `ClientInfo::newPeerRequest`: when no remote is
established yet (`!_remote.hasPort()`), bind the peer as the remote; when one
is established and differs from the peer, throw `UserException` 13134; in
either non-throwing case fall through to `newRequest`. A thrown exception is
modelled as `Except.error`; no state mutation precedes the throw in the
source, so the caller keeps the unmodified state on error. -/
def ClientInfo.newPeerRequest (s : ClientInfo) (peer : HostAndPort) (t : Int) :
    Except UserException ClientInfo :=
  match s.remote with
  | none => Except.ok (ClientInfo.newRequest { s with remote := some peer } t)
  | some r =>
    if r ≠ peer then Except.error ⟨13134, peerMismatchMsg r peer⟩
    else Except.ok (s.newRequest t)

/-- disableForCommand: `ClientInfo::disableForCommand`: swaps the two role
pointers and nothing else; neither buffer is cleared. -/
def ClientInfo.disableForCommand (s : ClientInfo) : ClientInfo :=
  { s with cur := s.prev, prev := s.cur }

/-- clearRequestInfo: `ClientInfo::clearRequestInfo`: clears the buffer in
the current role in place. -/
def ClientInfo.clearRequestInfo (s : ClientInfo) : ClientInfo :=
  s.setBuf s.cur RequestInfo.empty

/-- clearSinceLastGetError: `ClientInfo::clearSinceLastGetError`. -/
def ClientInfo.clearSinceLastGetError (s : ClientInfo) : ClientInfo :=
  { s with sinceLastGetError := [] }

/-- noAutoSplit: `ClientInfo::noAutoSplit`. -/
def ClientInfo.noAutoSplit (s : ClientInfo) : ClientInfo :=
  { s with autoSplitOk := false }

/-- disconnect: `ClientInfo::disconnect`: only resets `_lastAccess`; buffer
reclamation is left to thread-local cleanup. -/
def ClientInfo.disconnect (s : ClientInfo) : ClientInfo :=
  { s with lastAccess := 0 }

/-- FatalAssert: the failure of a hard assertion. Modelled from the spec: the
`massert` in `ClientInfo::create` is the fatal, non-recoverable
double-registration check (`DuplicateSession` in the spec), distinct in kind
from the recoverable `UserException` thrown by `newPeerRequest`; the body of
`massert` lives outside this repository slice. -/
structure FatalAssert where
  code : Nat
  msg : String
deriving DecidableEq, Repr

/-- create: `ClientInfo::create`: asserts (code 16472) that the thread-local
slot `_tlInfo` holds no ClientInfo yet, then allocates a new ClientInfo,
stores it in the slot, performs one `newRequest` on it, and returns it. The
thread-local slot is threaded explicitly as `tlInfo`; because the slot stores
the very object returned, the stored value reflects the `newRequest`. -/
def ClientInfo.create (messagingPort : Option HostAndPort) (t : Int)
    (tlInfo : Option ClientInfo) : Except FatalAssert (ClientInfo × Option ClientInfo) :=
  match tlInfo with
  | some _ => Except.error ⟨16472, "A ClientInfo already exists for this thread"⟩
  | none =>
    let info := (mkClientInfo messagingPort).newRequest t
    Except.ok (info, some info)

/-- ShardResponse: the outcome of `conn->runCommand`: the boolean it returns
and the response document (rendered to a string, as the source does with
`result.toString()` on the failure path). -/
structure ShardResponse where
  ok : Bool
  result : String
deriving DecidableEq, Repr

/-- ShardNet: the external shard transport: given the shard host, the db name
and the command object, either a `DBException` is thrown somewhere inside the
try block (connection establishment or `runCommand`), modelled as
`Except.error` carrying `ex.toString()`, or a response is returned. -/
abbrev ShardNet := String → String → BSONObj → Except String ShardResponse

/-- addOpTimeTo: `addOpTimeTo` in the source: copies every field of the
options and appends one `wOpTime` timestamp field. -/
def addOpTimeTo (options : BSONObj) (opTime : OpTime) : BSONObj :=
  options ++ [("wOpTime", opTime)]

/-- causedBy: the `causedBy` wrapper used when re-formatting an error
message. -/
def causedBy (e : String) : String := " :: caused by :: " ++ e

/-- wcFailMsg: the message built by `enforceWriteConcern` when a shard fails:
it names the failing shard host and wraps the underlying cause. -/
def wcFailMsg (shardHost cause : String) : String :=
  "could not enforce write concern on " ++ shardHost ++ causedBy cause

/-- enforceLoop: the per-shard loop of `ClientInfo::enforceWriteConcern`.
For each (shardHost, opTime) entry, in iteration order: build the options
with the op time appended, contact the shard (the try block: a thrown
`DBException` sets the error message from the exception and leaves ok false;
a returned response with ok false sets the error message from the response
document), and on any failure overwrite the message with the formatted
shard-naming message and return false without touching later entries. The
session state `s` is threaded through untouched, as the loop body reads and
writes no session member; the third result component is the list of shard
hosts contacted, in order, as ghost instrumentation. -/
def enforceLoop (net : ShardNet) (dbName : String) (options : BSONObj) (errMsg : String)
    (s : ClientInfo) : List (String × OpTime) → (Bool × String × List String) × ClientInfo
  | [] => ((true, errMsg, []), s)
  | (shardHost, opTime) :: rest =>
    let optionsWithOpTime := addOpTimeTo options opTime
    match net shardHost dbName optionsWithOpTime with
    | Except.ok resp =>
      if resp.ok then
        let res := enforceLoop net dbName options errMsg s rest
        ((res.1.1, res.1.2.1, shardHost :: res.1.2.2), res.2)
      else
        ((false, wcFailMsg shardHost resp.result, [shardHost]), s)
    | Except.error ex => ((false, wcFailMsg shardHost ex, [shardHost]), s)

/-- enforceWriteConcern: `ClientInfo::enforceWriteConcern`: reads
`getPrevHostOpTimes`; when empty returns true at once (the caller-owned
`errMsg` string is left as it was, modelled by threading it), otherwise runs
the per-shard loop. The result is a total value, never a thrown exception:
shard-level failures come back through the boolean and the message. The
session state is returned alongside so that theorems can speak about frame
effects. -/
def ClientInfo.enforceWriteConcern (s : ClientInfo) (net : ShardNet) (dbName : String)
    (options : BSONObj) (errMsg : String) : (Bool × String × List String) × ClientInfo :=
  let hostOpTimes := s.getPrevHostOpTimes
  if hostOpTimes.isEmpty then ((true, errMsg, []), s)
  else enforceLoop net dbName options errMsg s hostOpTimes

/-- RecordOp: the two recording operations a request in flight may perform. -/
inductive RecordOp
  | shardWrite (shardHost : String)
  | opPositions (hostOpTimes : List (String × OpTime))

/-- applyRecord: interpret one recording operation on the session. -/
def applyRecord (s : ClientInfo) : RecordOp → ClientInfo
  | RecordOp.shardWrite h => s.addShardHost h
  | RecordOp.opPositions m => s.addHostOpTimes m

/-- applyRecords: interpret a sequence of recording operations. -/
def applyRecords (s : ClientInfo) (ops : List RecordOp) : ClientInfo :=
  ops.foldl applyRecord s

/-- SessionOp: every mutating session operation, for stating whole-lifecycle
invariants. -/
inductive SessionOp
  | beginRequest (t : Int)
  | beginPeerRequest (peer : HostAndPort) (t : Int)
  | disableForCommand
  | shardWrite (shardHost : String)
  | opPositions (hostOpTimes : List (String × OpTime))
  | clearSince
  | clearRequest
  | noAutoSplit
  | disconnect

/-- applySessionOp: interpret one session operation; a `newPeerRequest` that
throws leaves the state as it was (the source mutates nothing before the
throw). -/
def applySessionOp (s : ClientInfo) : SessionOp → ClientInfo
  | SessionOp.beginRequest t => s.newRequest t
  | SessionOp.beginPeerRequest peer t =>
    match s.newPeerRequest peer t with
    | Except.ok s2 => s2
    | Except.error _ => s
  | SessionOp.disableForCommand => s.disableForCommand
  | SessionOp.shardWrite h => s.addShardHost h
  | SessionOp.opPositions m => s.addHostOpTimes m
  | SessionOp.clearSince => s.clearSinceLastGetError
  | SessionOp.clearRequest => s.clearRequestInfo
  | SessionOp.noAutoSplit => s.noAutoSplit
  | SessionOp.disconnect => s.disconnect

/-- applySessionOps: interpret a sequence of session operations. -/
def applySessionOps (s : ClientInfo) (ops : List SessionOp) : ClientInfo :=
  ops.foldl applySessionOp s

/-- shardAttemptOk: the outcome of attempting one shard in the enforcement
loop: true exactly when the connection was established, the command ran and
returned ok; false when the response said not ok or a DBException was
thrown. -/
def shardAttemptOk (net : ShardNet) (dbName : String) (options : BSONObj)
    (p : String × OpTime) : Bool :=
  match net p.1 dbName (addOpTimeTo options p.2) with
  | Except.ok resp => resp.ok
  | Except.error _ => false

/-- failCause: the underlying cause string recorded for a failed shard
attempt: the response document rendered to a string when the command returned
not ok, or the exception text when one was thrown. -/
def failCause (net : ShardNet) (dbName : String) (options : BSONObj)
    (p : String × OpTime) : String :=
  match net p.1 dbName (addOpTimeTo options p.2) with
  | Except.ok resp => resp.result
  | Except.error ex => ex

/-- hpA: a concrete peer used to exercise the theorems on concrete input. -/
def hpA : HostAndPort := ⟨"h1", 27017⟩

/-- hpB: a second concrete peer, distinct from hpA. -/
def hpB : HostAndPort := ⟨"h2", 27018⟩

/-- c1Ops: a concrete recording sequence for exercising the rotation
theorem. -/
def c1Ops : List RecordOp :=
  [RecordOp.shardWrite "sA", RecordOp.opPositions [("sA", 5), ("sB", 2)]]

/-- c2Net: a concrete shard transport where sA succeeds, sB throws a
connection exception, and every other host would succeed. -/
def c2Net : ShardNet := fun shardHost _ _ =>
  if shardHost = "sA" then Except.ok ⟨true, ""⟩
  else if shardHost = "sB" then Except.error "socket exception"
  else Except.ok ⟨true, ""⟩

/-- c2S: a concrete session whose previous buffer holds op times for sA, sB
and sC. -/
def c2S : ClientInfo :=
  { mkClientInfo none with
    b := { shardHostsWritten := [], hostOpTimes := [("sA", 1), ("sB", 2), ("sC", 3)] } }

/-- c9S: a concrete session whose previous buffer has a shard host recorded
only in shardHostsWritten (sW) and an unrelated op-time entry (sA). -/
def c9S : ClientInfo :=
  { mkClientInfo none with
    b := { shardHostsWritten := ["sW"], hostOpTimes := [("sA", 1)] } }

/-- c9S2: a session with the same previous op-time map as c9S but a different
previous shard set. -/
def c9S2 : ClientInfo :=
  { mkClientInfo none with
    b := { shardHostsWritten := [], hostOpTimes := [("sA", 1)] } }

/-! Basic lemmas about the buffer machinery. -/

theorem getBuf_setBuf_self (s : ClientInfo) (w : Buf) (r : RequestInfo) :
    (s.setBuf w r).getBuf w = r := by
  cases w <;> rfl

theorem getBuf_setBuf_other (s : ClientInfo) (w w2 : Buf) (r : RequestInfo) (h : w2 ≠ w) :
    (s.setBuf w r).getBuf w2 = s.getBuf w2 := by
  cases w <;> cases w2 <;> first | rfl | exact absurd rfl h

theorem setBuf_cur (s : ClientInfo) (w : Buf) (r : RequestInfo) :
    (s.setBuf w r).cur = s.cur := by
  cases w <;> rfl

theorem setBuf_prev (s : ClientInfo) (w : Buf) (r : RequestInfo) :
    (s.setBuf w r).prev = s.prev := by
  cases w <;> rfl

theorem setBuf_remote (s : ClientInfo) (w : Buf) (r : RequestInfo) :
    (s.setBuf w r).remote = s.remote := by
  cases w <;> rfl

theorem getBuf_congr (s s2 : ClientInfo) (ha : s2.a = s.a) (hb : s2.b = s.b) (bsel : Buf) :
    s2.getBuf bsel = s.getBuf bsel := by
  cases bsel <;> simp [ClientInfo.getBuf, ha, hb]

theorem newRequest_cur (s : ClientInfo) (t : Int) : (s.newRequest t).cur = s.prev := by
  simp [ClientInfo.newRequest, setBuf_cur]

theorem newRequest_prev (s : ClientInfo) (t : Int) : (s.newRequest t).prev = s.cur := by
  simp [ClientInfo.newRequest, setBuf_prev]

theorem newRequest_remote (s : ClientInfo) (t : Int) : (s.newRequest t).remote = s.remote := by
  simp [ClientInfo.newRequest, setBuf_remote]

theorem newRequest_curInfo (s : ClientInfo) (t : Int) :
    (s.newRequest t).curInfo = RequestInfo.empty := by
  cases hp : s.prev <;>
    simp [ClientInfo.newRequest, ClientInfo.curInfo, ClientInfo.setBuf, ClientInfo.getBuf, hp]

theorem newRequest_prevInfo (s : ClientInfo) (t : Int) (h : s.cur ≠ s.prev) :
    (s.newRequest t).prevInfo = s.curInfo := by
  cases hc : s.cur <;> cases hp : s.prev <;>
    first
    | exact absurd (hc.trans hp.symm) h
    | simp [ClientInfo.newRequest, ClientInfo.prevInfo, ClientInfo.curInfo,
        ClientInfo.setBuf, ClientInfo.getBuf, hc, hp]

theorem newRequest_getBuf_oldCur (s : ClientInfo) (t : Int) (h : s.cur ≠ s.prev) :
    (s.newRequest t).getBuf s.cur = s.getBuf s.cur := by
  cases hc : s.cur <;> cases hp : s.prev <;>
    first
    | exact absurd (hc.trans hp.symm) h
    | simp [ClientInfo.newRequest, ClientInfo.setBuf, ClientInfo.getBuf, hc, hp]

theorem addShardHost_cur (s : ClientInfo) (h : String) : (s.addShardHost h).cur = s.cur := by
  cases hc : s.cur <;> simp [ClientInfo.addShardHost, ClientInfo.setBuf, hc]

theorem addShardHost_prev (s : ClientInfo) (h : String) : (s.addShardHost h).prev = s.prev := by
  cases hc : s.cur <;> simp [ClientInfo.addShardHost, ClientInfo.setBuf, hc]

theorem addHostOpTimes_cur (s : ClientInfo) (m : List (String × OpTime)) :
    (s.addHostOpTimes m).cur = s.cur := by
  cases hc : s.cur <;> simp [ClientInfo.addHostOpTimes, ClientInfo.setBuf, hc]

theorem addHostOpTimes_prev (s : ClientInfo) (m : List (String × OpTime)) :
    (s.addHostOpTimes m).prev = s.prev := by
  cases hc : s.cur <;> simp [ClientInfo.addHostOpTimes, ClientInfo.setBuf, hc]

theorem addHostOpTimes_curInfo (s : ClientInfo) (m : List (String × OpTime)) :
    (s.addHostOpTimes m).curInfo =
      { s.curInfo with
        hostOpTimes :=
          m.foldl (fun acc kv => mapInsert kv.1 kv.2 acc) s.curInfo.hostOpTimes } := by
  cases hc : s.cur <;>
    simp [ClientInfo.addHostOpTimes, ClientInfo.curInfo, ClientInfo.setBuf, ClientInfo.getBuf, hc]

theorem applyRecord_cur (s : ClientInfo) (op : RecordOp) : (applyRecord s op).cur = s.cur := by
  cases op with
  | shardWrite h => exact addShardHost_cur s h
  | opPositions m => exact addHostOpTimes_cur s m

theorem applyRecord_prev (s : ClientInfo) (op : RecordOp) : (applyRecord s op).prev = s.prev := by
  cases op with
  | shardWrite h => exact addShardHost_prev s h
  | opPositions m => exact addHostOpTimes_prev s m

theorem applyRecords_cur (ops : List RecordOp) : ∀ s : ClientInfo, (applyRecords s ops).cur = s.cur := by
  induction ops with
  | nil => intro s; rfl
  | cons op rest ih =>
    intro s
    simp only [applyRecords, List.foldl_cons]
    rw [show List.foldl applyRecord (applyRecord s op) rest = applyRecords (applyRecord s op) rest from rfl,
      ih, applyRecord_cur]

theorem applyRecords_prev (ops : List RecordOp) : ∀ s : ClientInfo, (applyRecords s ops).prev = s.prev := by
  induction ops with
  | nil => intro s; rfl
  | cons op rest ih =>
    intro s
    simp only [applyRecords, List.foldl_cons]
    rw [show List.foldl applyRecord (applyRecord s op) rest = applyRecords (applyRecord s op) rest from rfl,
      ih, applyRecord_prev]

/-! Lemmas about the association-list map. -/

theorem mapLookup_mapInsert_self (k : String) (v : OpTime) (m : List (String × OpTime)) :
    mapLookup k (mapInsert k v m) = some v := by
  induction m with
  | nil => simp [mapInsert, mapLookup]
  | cons kv rest ih =>
    obtain ⟨k2, v2⟩ := kv
    by_cases h1 : k < k2
    · simp [mapInsert, h1, mapLookup]
    · by_cases h2 : k = k2
      · simp [mapInsert, h1, h2, mapLookup]
      · simp [mapInsert, h1, h2, mapLookup, ih]

theorem mapLookup_mapInsert_other (k k2 : String) (v : OpTime) (m : List (String × OpTime))
    (h : k2 ≠ k) : mapLookup k2 (mapInsert k v m) = mapLookup k2 m := by
  induction m with
  | nil => simp [mapInsert, mapLookup, h]
  | cons kv rest ih =>
    obtain ⟨k3, v3⟩ := kv
    by_cases h1 : k < k3
    · simp [mapInsert, h1, mapLookup, h]
    · by_cases h2 : k = k3
      · by_cases h3 : k2 = k3
        · exact absurd (h3.trans h2.symm) h
        · simp [mapInsert, h1, h2, mapLookup, h, h3]
      · by_cases h3 : k2 = k3
        · simp [mapInsert, h1, h2, mapLookup, h3]
        · simp [mapInsert, h1, h2, mapLookup, h3, ih]

theorem mapLookup_none_not_mem (k : String) (m : List (String × OpTime))
    (h : mapLookup k m = none) : k ∉ m.map Prod.fst := by
  induction m with
  | nil => simp
  | cons kv rest ih =>
    obtain ⟨k2, v2⟩ := kv
    by_cases hk : k = k2
    · simp [mapLookup, hk] at h
    · simp only [mapLookup, if_neg hk] at h
      simp [hk, ih h]

/-! Role-transition lemmas for the whole operation language. -/

theorem applySessionOp_roles (s : ClientInfo) (op : SessionOp) :
    ((applySessionOp s op).cur = s.cur ∧ (applySessionOp s op).prev = s.prev) ∨
    ((applySessionOp s op).cur = s.prev ∧ (applySessionOp s op).prev = s.cur) := by
  cases op with
  | beginRequest t => exact Or.inr ⟨newRequest_cur s t, newRequest_prev s t⟩
  | beginPeerRequest peer t =>
    cases hrem : s.remote with
    | none =>
      refine Or.inr ?_
      simp only [applySessionOp, ClientInfo.newPeerRequest, hrem]
      exact ⟨newRequest_cur _ t, newRequest_prev _ t⟩
    | some r =>
      by_cases hr : r ≠ peer
      · refine Or.inl ?_
        simp [applySessionOp, ClientInfo.newPeerRequest, hrem, hr]
      · refine Or.inr ?_
        simp only [applySessionOp, ClientInfo.newPeerRequest, hrem, if_neg hr]
        exact ⟨newRequest_cur s t, newRequest_prev s t⟩
  | disableForCommand => exact Or.inr ⟨rfl, rfl⟩
  | shardWrite h => exact Or.inl ⟨addShardHost_cur s h, addShardHost_prev s h⟩
  | opPositions m => exact Or.inl ⟨addHostOpTimes_cur s m, addHostOpTimes_prev s m⟩
  | clearSince => exact Or.inl ⟨rfl, rfl⟩
  | clearRequest => exact Or.inl ⟨setBuf_cur s s.cur _, setBuf_prev s s.cur _⟩
  | noAutoSplit => exact Or.inl ⟨rfl, rfl⟩
  | disconnect => exact Or.inl ⟨rfl, rfl⟩

theorem applySessionOp_roles_ne (s : ClientInfo) (op : SessionOp) (h : s.cur ≠ s.prev) :
    (applySessionOp s op).cur ≠ (applySessionOp s op).prev := by
  rcases applySessionOp_roles s op with ⟨h1, h2⟩ | ⟨h1, h2⟩
  · rw [h1, h2]; exact h
  · rw [h1, h2]; exact h.symm

theorem applySessionOps_roles_ne (ops : List SessionOp) :
    ∀ s : ClientInfo, s.cur ≠ s.prev →
      (applySessionOps s ops).cur ≠ (applySessionOps s ops).prev := by
  induction ops with
  | nil => intro s h; exact h
  | cons op rest ih =>
    intro s h
    simp only [applySessionOps, List.foldl_cons]
    exact ih (applySessionOp s op) (applySessionOp_roles_ne s op h)

/-! Lemmas about the enforcement loop. -/

theorem enforceLoop_fail_fast (net : ShardNet) (dbName : String) (options : BSONObj)
    (errMsg : String) (s : ClientInfo) (post : List (String × OpTime)) (fp : String × OpTime)
    (hfail : shardAttemptOk net dbName options fp = false) :
    ∀ pre : List (String × OpTime), (∀ p ∈ pre, shardAttemptOk net dbName options p = true) →
      (enforceLoop net dbName options errMsg s (pre ++ fp :: post)).1 =
        (false, wcFailMsg fp.1 (failCause net dbName options fp), pre.map Prod.fst ++ [fp.1]) := by
  intro pre
  induction pre with
  | nil =>
    intro _
    obtain ⟨fh, ft⟩ := fp
    simp only [List.nil_append, enforceLoop]
    cases hnet : net fh dbName (addOpTimeTo options ft) with
    | ok resp =>
      have hro : resp.ok = false := by
        simpa [shardAttemptOk, hnet] using hfail
      simp [hro, failCause, hnet]
    | error ex =>
      simp [failCause, hnet]
  | cons hd tl ih =>
    intro hpre
    obtain ⟨hh, ht⟩ := hd
    have hok : shardAttemptOk net dbName options (hh, ht) = true := hpre _ (by simp)
    simp only [List.cons_append, enforceLoop]
    cases hnet : net hh dbName (addOpTimeTo options ht) with
    | ok resp =>
      have hro : resp.ok = true := by
        simpa [shardAttemptOk, hnet] using hok
      have ihh := ih (fun p hp => hpre p (by simp [hp]))
      simp [hro, ihh]
    | error ex =>
      simp [shardAttemptOk, hnet] at hok

theorem enforceLoop_contacted_subset (net : ShardNet) (dbName : String) (options : BSONObj)
    (errMsg : String) (s : ClientInfo) :
    ∀ entries : List (String × OpTime), ∀ x ∈ (enforceLoop net dbName options errMsg s entries).1.2.2,
      x ∈ entries.map Prod.fst := by
  intro entries
  induction entries with
  | nil => simp [enforceLoop]
  | cons hd tl ih =>
    obtain ⟨hh, ht⟩ := hd
    intro x hx
    simp only [enforceLoop] at hx
    cases hnet : net hh dbName (addOpTimeTo options ht) with
    | ok resp =>
      rw [hnet] at hx
      by_cases hro : resp.ok
      · simp only [hro, if_true] at hx
        rcases List.mem_cons.mp hx with hx1 | hx2
        · simp [hx1]
        · simp only [List.map_cons, List.mem_cons]
          exact Or.inr (ih x hx2)
      · simp only [if_neg hro, List.mem_singleton] at hx
        simp [hx]
    | error ex =>
      rw [hnet] at hx
      simp only [List.mem_singleton] at hx
      simp [hx]

theorem enforceLoop_result_state_indep (net : ShardNet) (dbName : String) (options : BSONObj)
    (errMsg : String) :
    ∀ entries : List (String × OpTime), ∀ s s2 : ClientInfo,
      (enforceLoop net dbName options errMsg s entries).1 =
        (enforceLoop net dbName options errMsg s2 entries).1 := by
  intro entries
  induction entries with
  | nil => intro s s2; rfl
  | cons hd tl ih =>
    intro s s2
    obtain ⟨hh, ht⟩ := hd
    simp only [enforceLoop]
    cases hnet : net hh dbName (addOpTimeTo options ht) with
    | ok resp =>
      by_cases hro : resp.ok
      · simp [hro, ih s s2]
      · simp [hro]
    | error ex => simp

theorem enforceLoop_state (net : ShardNet) (dbName : String) (options : BSONObj)
    (errMsg : String) (s : ClientInfo) :
    ∀ entries : List (String × OpTime),
      (enforceLoop net dbName options errMsg s entries).2 = s := by
  intro entries
  induction entries with
  | nil => rfl
  | cons hd tl ih =>
    obtain ⟨hh, ht⟩ := hd
    simp only [enforceLoop]
    cases hnet : net hh dbName (addOpTimeTo options ht) with
    | ok resp =>
      by_cases hro : resp.ok
      · simp [hro, ih]
      · simp [hro]
    | error ex => simp

/-! Claim theorems. -/

/-- Claim C1: for every session whose two role pointers are distinct (the
invariant of every reachable session) and every sequence of recordShardWrite
(addShardHost) and recordShardOpPositions (addHostOpTimes) calls made while a
request is in flight, calling beginRequest (newRequest) afterwards makes the
previous buffer equal exactly the contents accumulated in current before the
call, both the shard set and the op-position map, and leaves the new current
buffer empty; the buffers are role-swapped, not copied: the role pointers are
exchanged and the physical buffer that held the accumulated state is left
untouched. -/
theorem newRequest_rotates_accumulated_state (s0 : ClientInfo) (ops : List RecordOp) (t : Int)
    (h : s0.cur ≠ s0.prev) :
    ((applyRecords s0 ops).newRequest t).getPrevShardHosts =
      (applyRecords s0 ops).curInfo.shardHostsWritten ∧
    ((applyRecords s0 ops).newRequest t).getPrevHostOpTimes =
      (applyRecords s0 ops).curInfo.hostOpTimes ∧
    ((applyRecords s0 ops).newRequest t).curInfo = RequestInfo.empty ∧
    ((applyRecords s0 ops).newRequest t).cur = (applyRecords s0 ops).prev ∧
    ((applyRecords s0 ops).newRequest t).prev = (applyRecords s0 ops).cur ∧
    ((applyRecords s0 ops).newRequest t).getBuf (applyRecords s0 ops).cur =
      (applyRecords s0 ops).getBuf (applyRecords s0 ops).cur := by
  have hne : (applyRecords s0 ops).cur ≠ (applyRecords s0 ops).prev := by
    rw [applyRecords_cur, applyRecords_prev]; exact h
  refine ⟨?_, ?_, newRequest_curInfo _ t, newRequest_cur _ t, newRequest_prev _ t,
    newRequest_getBuf_oldCur _ t hne⟩
  · simp [ClientInfo.getPrevShardHosts, newRequest_prevInfo _ t hne]
  · simp [ClientInfo.getPrevHostOpTimes, newRequest_prevInfo _ t hne]

/-- Witness for the C1 theorem at a concrete session and recording sequence. -/
theorem newRequest_rotates_accumulated_state_witness :
    (mkClientInfo none).cur ≠ (mkClientInfo none).prev ∧
    (((applyRecords (mkClientInfo none) c1Ops).newRequest 7).getPrevShardHosts =
        (applyRecords (mkClientInfo none) c1Ops).curInfo.shardHostsWritten ∧
      ((applyRecords (mkClientInfo none) c1Ops).newRequest 7).getPrevHostOpTimes =
        (applyRecords (mkClientInfo none) c1Ops).curInfo.hostOpTimes ∧
      ((applyRecords (mkClientInfo none) c1Ops).newRequest 7).curInfo = RequestInfo.empty ∧
      ((applyRecords (mkClientInfo none) c1Ops).newRequest 7).cur =
        (applyRecords (mkClientInfo none) c1Ops).prev ∧
      ((applyRecords (mkClientInfo none) c1Ops).newRequest 7).prev =
        (applyRecords (mkClientInfo none) c1Ops).cur ∧
      ((applyRecords (mkClientInfo none) c1Ops).newRequest 7).getBuf
          (applyRecords (mkClientInfo none) c1Ops).cur =
        (applyRecords (mkClientInfo none) c1Ops).getBuf
          (applyRecords (mkClientInfo none) c1Ops).cur) :=
  ⟨by decide, newRequest_rotates_accumulated_state (mkClientInfo none) c1Ops 7 (by decide)⟩

/-- Claim C5: disableForCommand swaps the current and previous roles without
clearing either buffer (both physical buffers are unchanged), and is an
involution: two consecutive calls restore the original state exactly. -/
theorem disableForCommand_swap_involution (s : ClientInfo) :
    s.disableForCommand.disableForCommand = s ∧
    s.disableForCommand.curInfo = s.prevInfo ∧
    s.disableForCommand.prevInfo = s.curInfo ∧
    s.disableForCommand.a = s.a ∧
    s.disableForCommand.b = s.b := by
  refine ⟨rfl, ?_, ?_, rfl, rfl⟩ <;>
    cases hc : s.cur <;> cases hp : s.prev <;>
      simp [ClientInfo.disableForCommand, ClientInfo.curInfo, ClientInfo.prevInfo,
        ClientInfo.getBuf, hc, hp]

/-- Claim C6: recordShardOpPositions (addHostOpTimes) is last-write-wins with
no max-merge and no ordering check: two calls for the same shard with
positions t1 then t2 leave the stored position t2 for every t1 and t2, other
shards are untouched by those calls, and an entry for a different shard in a
later call is merged in alongside the existing entry. -/
theorem addHostOpTimes_lastWriteWins (s : ClientInfo) (sh sh2 : String) (t1 t2 : OpTime)
    (hne : sh2 ≠ sh) :
    mapLookup sh ((s.addHostOpTimes [(sh, t1)]).addHostOpTimes [(sh, t2)]).curInfo.hostOpTimes =
      some t2 ∧
    mapLookup sh2 ((s.addHostOpTimes [(sh, t1)]).addHostOpTimes [(sh, t2)]).curInfo.hostOpTimes =
      mapLookup sh2 s.curInfo.hostOpTimes ∧
    mapLookup sh ((s.addHostOpTimes [(sh, t1)]).addHostOpTimes [(sh2, t2)]).curInfo.hostOpTimes =
      some t1 ∧
    mapLookup sh2 ((s.addHostOpTimes [(sh, t1)]).addHostOpTimes [(sh2, t2)]).curInfo.hostOpTimes =
      some t2 := by
  have h1 : ∀ (x : ClientInfo) (k : String) (v : OpTime),
      (x.addHostOpTimes [(k, v)]).curInfo.hostOpTimes = mapInsert k v x.curInfo.hostOpTimes := by
    intro x k v
    rw [addHostOpTimes_curInfo]
    rfl
  refine ⟨?_, ?_, ?_, ?_⟩
  · rw [h1, h1, mapLookup_mapInsert_self]
  · rw [h1, h1, mapLookup_mapInsert_other _ _ _ _ hne, mapLookup_mapInsert_other _ _ _ _ hne]
  · rw [h1, h1, mapLookup_mapInsert_other _ _ _ _ (Ne.symm hne), mapLookup_mapInsert_self]
  · rw [h1, h1, mapLookup_mapInsert_self]

/-- Witness for the C6 theorem at a concrete session, with the second
position smaller than the first. -/
theorem addHostOpTimes_lastWriteWins_witness :
    mapLookup "sA"
        (((mkClientInfo none).addHostOpTimes [("sA", 3)]).addHostOpTimes
            [("sA", 1)]).curInfo.hostOpTimes = some 1 ∧
    mapLookup "sB"
        (((mkClientInfo none).addHostOpTimes [("sA", 3)]).addHostOpTimes
            [("sA", 1)]).curInfo.hostOpTimes =
      mapLookup "sB" (mkClientInfo none).curInfo.hostOpTimes ∧
    mapLookup "sA"
        (((mkClientInfo none).addHostOpTimes [("sA", 3)]).addHostOpTimes
            [("sB", 1)]).curInfo.hostOpTimes = some 3 ∧
    mapLookup "sB"
        (((mkClientInfo none).addHostOpTimes [("sA", 3)]).addHostOpTimes
            [("sB", 1)]).curInfo.hostOpTimes = some 1 :=
  addHostOpTimes_lastWriteWins (mkClientInfo none) "sA" "sB" 3 1 (by decide)

/-- Claim C7: a session owns exactly the two buffers selected by the two role
pointers, and after any sequence of operations starting from construction the
two role pointers are distinct; moreover every single operation either leaves
both roles in place or swaps them, so transitions only exchange roles and
never copy or reallocate the buffers. -/
theorem session_buffers_distinct (mp : Option HostAndPort) (ops : List SessionOp) :
    (applySessionOps (mkClientInfo mp) ops).cur ≠ (applySessionOps (mkClientInfo mp) ops).prev ∧
    ∀ s : ClientInfo, ∀ op : SessionOp,
      ((applySessionOp s op).cur = s.cur ∧ (applySessionOp s op).prev = s.prev) ∨
      ((applySessionOp s op).cur = s.prev ∧ (applySessionOp s op).prev = s.cur) :=
  ⟨applySessionOps_roles_ne ops (mkClientInfo mp) (by simp [mkClientInfo]),
   fun s op => applySessionOp_roles s op⟩

/-- Claim C8: the registry create fails with the hard assertion 16472 (the
fatal DuplicateSession error, a FatalAssert rather than the recoverable
UserException) whenever a ClientInfo already occupies the thread-local slot;
when the slot is empty it allocates a fresh ClientInfo, stores it, performs
exactly one newRequest transition on it so the new session starts with an
empty current buffer, and returns that same session. -/
theorem create_registry_spec :
    (∀ mp : Option HostAndPort, ∀ t : Int, ∀ info : ClientInfo,
      ClientInfo.create mp t (some info) =
        Except.error ⟨16472, "A ClientInfo already exists for this thread"⟩) ∧
    (∀ mp : Option HostAndPort, ∀ t : Int,
      ClientInfo.create mp t none =
        Except.ok ((mkClientInfo mp).newRequest t, some ((mkClientInfo mp).newRequest t)) ∧
      ((mkClientInfo mp).newRequest t).curInfo = RequestInfo.empty) :=
  ⟨fun _ _ _ => rfl, fun _ t => ⟨rfl, newRequest_curInfo _ t⟩⟩

/-- Claim C2: enforceWriteConcern on a session whose previous op-position map
is non-empty contacts shards one at a time in the map iteration order and
stops at the first shard whose attempt fails, whether the command returned
not ok or the connection threw: the shards contacted are exactly those before
the failure plus the failing one (no later shard is contacted), the result is
false, and the message names the failing shard host and wraps the underlying
cause. The operation is a total function: shard-level failures surface only
through this boolean and message, never as a thrown error. -/
theorem enforceWriteConcern_fail_fast (net : ShardNet) (dbName : String) (options : BSONObj)
    (errMsg : String) (s : ClientInfo) (pre post : List (String × OpTime)) (fp : String × OpTime)
    (hsplit : s.getPrevHostOpTimes = pre ++ fp :: post)
    (hpre : ∀ p ∈ pre, shardAttemptOk net dbName options p = true)
    (hfail : shardAttemptOk net dbName options fp = false) :
    (s.enforceWriteConcern net dbName options errMsg).1 =
      (false, wcFailMsg fp.1 (failCause net dbName options fp), pre.map Prod.fst ++ [fp.1]) := by
  have hres := enforceLoop_fail_fast net dbName options errMsg s post fp hfail pre hpre
  simp only [ClientInfo.enforceWriteConcern, hsplit]
  rw [if_neg (by simp)]
  exact hres

/-- Witness for the C2 theorem: three shards in the previous buffer, sA
succeeds, sB throws a connection exception, sC is never contacted. -/
theorem enforceWriteConcern_fail_fast_witness :
    (c2S.enforceWriteConcern c2Net "db" [] "").1 =
      (false, wcFailMsg "sB" (failCause c2Net "db" [] ("sB", 2)), ["sA", "sB"]) :=
  enforceWriteConcern_fail_fast c2Net "db" [] "" c2S [("sA", 1)] [("sC", 3)] ("sB", 2)
    rfl (by decide) (by decide)

/-- Claim C3: enforceWriteConcern on a session whose previous op-position map
is empty returns ok immediately, with no shard contacted and the caller
string untouched. -/
theorem enforceWriteConcern_empty (net : ShardNet) (dbName : String) (options : BSONObj)
    (errMsg : String) (s : ClientInfo) (hempty : s.getPrevHostOpTimes = []) :
    s.enforceWriteConcern net dbName options errMsg = ((true, errMsg, []), s) := by
  simp [ClientInfo.enforceWriteConcern, hempty]

/-- Witness for the C3 theorem at a freshly constructed session. -/
theorem enforceWriteConcern_empty_witness :
    (mkClientInfo none).enforceWriteConcern c2Net "db" [] "prior" =
      ((true, "prior", []), mkClientInfo none) :=
  enforceWriteConcern_empty c2Net "db" [] "prior" (mkClientInfo none) rfl

/-- Claim C4: newPeerRequest establishes the connection identity when none is
set yet; when an identity is established and the reported peer differs, it
fails with the recoverable thrown UserException 13134 (the PeerMismatch
error) and performs no transition at all, the state is untouched; when the
peer matches it behaves exactly as newRequest, so two calls with the same
peer both succeed and perform two buffer rotations. -/
theorem newPeerRequest_peer_binding (s : ClientInfo) (p : HostAndPort) (t t2 : Int) :
    (s.remote = none →
      s.newPeerRequest p t = Except.ok (ClientInfo.newRequest { s with remote := some p } t)) ∧
    (∀ r : HostAndPort, s.remote = some r → r ≠ p →
      s.newPeerRequest p t = Except.error ⟨13134, peerMismatchMsg r p⟩ ∧
      applySessionOp s (SessionOp.beginPeerRequest p t) = s) ∧
    (s.remote = some p → s.newPeerRequest p t = Except.ok (s.newRequest t)) ∧
    ((s.remote = none ∨ s.remote = some p) →
      applySessionOps s [SessionOp.beginPeerRequest p t, SessionOp.beginPeerRequest p t2] =
        ClientInfo.newRequest (ClientInfo.newRequest { s with remote := some p } t) t2) := by
  refine ⟨?_, ?_, ?_, ?_⟩
  · intro h
    simp [ClientInfo.newPeerRequest, h]
  · intro r hr hne
    refine ⟨?_, ?_⟩
    · simp [ClientInfo.newPeerRequest, hr, hne]
    · simp [applySessionOp, ClientInfo.newPeerRequest, hr, hne]
  · intro h
    simp [ClientInfo.newPeerRequest, h]
  · intro h
    have hs1 : applySessionOp s (SessionOp.beginPeerRequest p t) =
        ClientInfo.newRequest { s with remote := some p } t := by
      rcases h with h | h
      · simp [applySessionOp, ClientInfo.newPeerRequest, h]
      · have hse : ({ s with remote := some p } : ClientInfo) = s := by
          rw [← h]
        simp [applySessionOp, ClientInfo.newPeerRequest, h, hse]
    have hrem1 : (ClientInfo.newRequest { s with remote := some p } t).remote = some p := by
      rw [newRequest_remote]
    simp only [applySessionOps, List.foldl_cons, List.foldl_nil]
    rw [hs1]
    simp [applySessionOp, ClientInfo.newPeerRequest, hrem1]

/-- Witness for the C4 theorem: binding on a fresh session, mismatch failure
with untouched state, matching success, and two same-peer rotations. -/
theorem newPeerRequest_peer_binding_witness :
    ((mkClientInfo none).newPeerRequest hpA 1 =
      Except.ok (ClientInfo.newRequest { mkClientInfo none with remote := some hpA } 1)) ∧
    ((mkClientInfo (some hpA)).newPeerRequest hpB 2 =
        Except.error ⟨13134, peerMismatchMsg hpA hpB⟩ ∧
      applySessionOp (mkClientInfo (some hpA)) (SessionOp.beginPeerRequest hpB 2) =
        mkClientInfo (some hpA)) ∧
    ((mkClientInfo (some hpA)).newPeerRequest hpA 3 =
      Except.ok ((mkClientInfo (some hpA)).newRequest 3)) ∧
    (applySessionOps (mkClientInfo none)
        [SessionOp.beginPeerRequest hpA 4, SessionOp.beginPeerRequest hpA 5] =
      ClientInfo.newRequest (ClientInfo.newRequest
        { mkClientInfo none with remote := some hpA } 4) 5) :=
  ⟨(newPeerRequest_peer_binding (mkClientInfo none) hpA 1 1).1 rfl,
   (newPeerRequest_peer_binding (mkClientInfo (some hpA)) hpB 2 2).2.1 hpA rfl (by decide),
   (newPeerRequest_peer_binding (mkClientInfo (some hpA)) hpA 3 3).2.2.1 rfl,
   (newPeerRequest_peer_binding (mkClientInfo none) hpA 4 5).2.2.2 (Or.inl rfl)⟩

/-- Claim C9: enforcement consults only the previous op-position map, never
the previous shard-written set: a shard host present in the previous
shardHostsWritten but absent from the previous op-position map is never
contacted, and the enforcement result is a function of the previous
op-position map alone, so the shard-written set cannot affect it. -/
theorem enforceWriteConcern_ignores_shardsWritten (net : ShardNet) (dbName : String)
    (options : BSONObj) (errMsg : String) (s : ClientInfo) (sh : String)
    (_hmem : sh ∈ s.getPrevShardHosts)
    (hnone : mapLookup sh s.getPrevHostOpTimes = none) :
    sh ∉ (s.enforceWriteConcern net dbName options errMsg).1.2.2 ∧
    ∀ s2 : ClientInfo, s2.getPrevHostOpTimes = s.getPrevHostOpTimes →
      (s2.enforceWriteConcern net dbName options errMsg).1 =
        (s.enforceWriteConcern net dbName options errMsg).1 := by
  constructor
  · intro hx
    by_cases he : s.getPrevHostOpTimes.isEmpty
    · simp [ClientInfo.enforceWriteConcern, he] at hx
    · have hx2 : sh ∈ (enforceLoop net dbName options errMsg s s.getPrevHostOpTimes).1.2.2 := by
        simpa [ClientInfo.enforceWriteConcern, he] using hx
      exact mapLookup_none_not_mem sh _ hnone
        (enforceLoop_contacted_subset net dbName options errMsg s s.getPrevHostOpTimes sh hx2)
  · intro s2 h2
    simp only [ClientInfo.enforceWriteConcern, h2]
    by_cases he : s.getPrevHostOpTimes.isEmpty
    · simp [he]
    · simp [he, enforceLoop_result_state_indep net dbName options errMsg
        s.getPrevHostOpTimes s2 s]

/-- Witness for the C9 theorem: sW is recorded only in the previous shard
set, is never contacted, and a session differing only in that set yields the
same result. -/
theorem enforceWriteConcern_ignores_shardsWritten_witness :
    "sW" ∉ (c9S.enforceWriteConcern c2Net "db" [] "").1.2.2 ∧
    (c9S2.enforceWriteConcern c2Net "db" [] "").1 =
      (c9S.enforceWriteConcern c2Net "db" [] "").1 :=
  ⟨(enforceWriteConcern_ignores_shardsWritten c2Net "db" [] "" c9S "sW"
      (by decide) (by decide)).1,
   (enforceWriteConcern_ignores_shardsWritten c2Net "db" [] "" c9S "sW"
      (by decide) (by decide)).2 c9S2 rfl⟩

/-- Claim C10: enforceWriteConcern never modifies the session state: for
every session and every transport behavior the returned state equals the
input state in all fields (current and previous buffers, sinceLastGetError,
remote identity, autoSplitOk, lastAccess); its only outputs are the boolean,
the message, and the instrumentation list of contacted shards. -/
theorem enforceWriteConcern_frame (net : ShardNet) (dbName : String) (options : BSONObj)
    (errMsg : String) (s : ClientInfo) :
    (s.enforceWriteConcern net dbName options errMsg).2 = s := by
  by_cases he : s.getPrevHostOpTimes.isEmpty
  · simp [ClientInfo.enforceWriteConcern, he]
  · simp [ClientInfo.enforceWriteConcern, he, enforceLoop_state]
